import Mathlib

/-!
Shallow embedding of the todo repository of this repository
(`src/todo.rs` and `src/pagination.rs`), backed by the SQLite table
declared in the test module's `create_table`:

  CREATE TABLE IF NOT EXISTS todos
  ( id        INTEGER PRIMARY KEY NOT NULL,
    title     TEXT                NOT NULL,
    notes     TEXT                NOT NULL DEFAULT 'note',
    completed BOOLEAN             NOT NULL DEFAULT 0 );

The table is modelled as a `List Todo` in insertion order.  Because the
schema declares `id INTEGER PRIMARY KEY` without `AUTOINCREMENT`, SQLite
assigns to an INSERT that omits `id` the rowid one greater than the
largest rowid currently in the table (1 when the table is empty), and
`last_insert_rowid()` returns it; this is what `maxId` below captures.
-/

/-- The persisted entity (struct `Todo` in `src/todo.rs`): one row of `todos`. -/
structure Todo where
  id : Int
  title : String
  notes : String
  completed : Bool
deriving Repr, DecidableEq

/-- Input value for `create` (struct `CreateTodo`): carries only the title. -/
structure CreateTodo where
  title : String
deriving Repr, DecidableEq

/-- Patch value for `update` (struct `UpdateTodo`): all three fields optional. -/
structure UpdateTodo where
  title : Option String
  notes : Option String
  completed : Option Bool
deriving Repr, DecidableEq

/-- Query parameters (struct `Pagination` in `src/pagination.rs`);
the Rust `u32` fields are modelled as `Nat` (values are below `2^32`). -/
structure Pagination where
  offset : Option Nat
  limit : Option Nat
deriving Repr, DecidableEq

/-- `u32::MAX`, the value `list` binds for an absent limit. -/
def u32Max : Nat := 4294967295

/-- Failure taxonomy of the repository: `sqlx::Error::RowNotFound` surfaced by
`fetch_one` (the not-found case), versus any other store failure. -/
inductive RepoError where
  | notFound
  | storageError (detail : String)
deriving Repr, DecidableEq

/-- Largest `id` currently in the table (0 for the empty table).  SQLite
assigns `maxId rows + 1` as the rowid of the next INSERT that omits `id`,
since the schema has no `AUTOINCREMENT`. -/
def maxId (rows : List Todo) : Int :=
  rows.foldl (fun m t => max m t.id) 0

/-- `ORDER BY id`: the rows sorted by ascending `id`. -/
def sortById (rows : List Todo) : List Todo :=
  List.insertionSort (fun a b => a.id ≤ b.id) rows

namespace TodoRepository

/-- `create` (`src/todo.rs:38`): `INSERT INTO todos ( title ) VALUES ( ?1 )`
followed by `last_insert_rowid()`.  Only the title is supplied; the schema
defaults fill `notes` (`'note'`) and `completed` (`0`, i.e. false). -/
def create (rows : List Todo) (todo : CreateTodo) : Int × List Todo :=
  let id := maxId rows + 1
  (id, rows ++ [{ id := id, title := todo.title, notes := "note", completed := false }])

/-- `list` (`src/todo.rs:47`): `SELECT * FROM todos ORDER BY id LIMIT ?1 OFFSET ?2`
with `pagination.limit.unwrap_or(u32::MAX)` and `pagination.offset.unwrap_or(0)`. -/
def list (rows : List Todo) (pag : Pagination) : List Todo :=
  ((sortById rows).drop (pag.offset.getD 0)).take (pag.limit.getD u32Max)

/-- `get` (`src/todo.rs:58`): `select * from todos where id = ?1 limit 1` via
`fetch_one`, which fails with `RowNotFound` when no row matches. -/
def get (rows : List Todo) (id : Int) : Except RepoError Todo :=
  match rows.find? (fun t => t.id == id) with
  | some todo => .ok todo
  | none => .error .notFound

/-- `update` (`src/todo.rs:66`): first `get(id)` (propagating its failure), then
`UPDATE todos SET title = ?2, notes = ?3, completed = ?4 where id = ?1` where
each bound value is `update.field.unwrap_or(todo.field)`; returns `rows_affected`. -/
def update (rows : List Todo) (id : Int) (patch : UpdateTodo) :
    Except RepoError (Nat × List Todo) :=
  match get rows id with
  | .error e => .error e
  | .ok todo =>
    let title := patch.title.getD todo.title
    let notes := patch.notes.getD todo.notes
    let completed := patch.completed.getD todo.completed
    let affected := (rows.filter (fun t => t.id == id)).length
    let updated := rows.map (fun t =>
      if t.id == id then { t with title := title, notes := notes, completed := completed }
      else t)
    .ok (affected, updated)

/-- `delete` (`src/todo.rs:80`): `DELETE from todos where id = ?1`;
returns `rows_affected`. -/
def delete (rows : List Todo) (id : Int) : Nat × List Todo :=
  ((rows.filter (fun t => t.id == id)).length,
   rows.filter (fun t => !(t.id == id)))

/-- `cleanup` (`src/todo.rs:88`): `DELETE from todos`; returns `rows_affected`. -/
def cleanup (rows : List Todo) : Nat × List Todo :=
  (rows.length, [])

end TodoRepository

/-- One repository call, as issued by a caller of `TodoRepository`. -/
inductive Op where
  | create (input : CreateTodo)
  | get (id : Int)
  | list (pag : Pagination)
  | update (id : Int) (patch : UpdateTodo)
  | delete (id : Int)
  | cleanup
deriving Repr, DecidableEq

/-- The table state after one repository call (a failed `update` writes nothing). -/
def Op.apply (rows : List Todo) : Op → List Todo
  | .create c => (TodoRepository.create rows c).2
  | .get _ => rows
  | .list _ => rows
  | .update id patch =>
    match TodoRepository.update rows id patch with
    | .ok (_, updated) => updated
    | .error _ => rows
  | .delete id => (TodoRepository.delete rows id).2
  | .cleanup => (TodoRepository.cleanup rows).2

/-- A call that only reads (`get` or `list`), never writes. -/
def Op.isRead : Op → Bool
  | .get _ => true
  | .list _ => true
  | _ => false

/-- The table state after a sequence of repository calls. -/
def run (rows : List Todo) : List Op → List Todo
  | [] => rows
  | op :: ops => run (Op.apply rows op) ops

/-- A table state is reachable when some sequence of repository calls
produces it from the empty table. -/
def Reachable (rows : List Todo) : Prop :=
  ∃ ops : List Op, run [] ops = rows

/-- The ids of the successively created rows when a sequence of `create`
calls runs against the table. -/
def createdIds (rows : List Todo) : List CreateTodo → List Int
  | [] => []
  | c :: cs =>
    let r := TodoRepository.create rows c
    r.1 :: createdIds r.2 cs

/-- A concrete four-row table with ids 1–4, as produced by four `create` calls. -/
def rows4 : List Todo :=
  [⟨1, "Test todo 1", "note", false⟩, ⟨2, "Test todo 2", "note", false⟩,
   ⟨3, "Test todo 3", "note", false⟩, ⟨4, "Test todo 4", "note", false⟩]

lemma le_maxId_aux (rows : List Todo) (b : Int) :
    b ≤ rows.foldl (fun m t => max m t.id) b := by
  induction rows generalizing b with
  | nil => simp
  | cons r rs ih =>
    simp only [List.foldl_cons]
    exact le_trans (le_max_left b r.id) (ih (max b r.id))

lemma mem_le_maxId_aux (rows : List Todo) (b : Int) (t : Todo) (h : t ∈ rows) :
    t.id ≤ rows.foldl (fun m t => max m t.id) b := by
  induction rows generalizing b with
  | nil => cases h
  | cons r rs ih =>
    simp only [List.foldl_cons]
    rcases List.mem_cons.mp h with rfl | h2
    · exact le_trans (le_max_right b t.id) (le_maxId_aux rs (max b t.id))
    · exact ih (max b r.id) h2

lemma mem_le_maxId {rows : List Todo} {t : Todo} (h : t ∈ rows) : t.id ≤ maxId rows :=
  mem_le_maxId_aux rows 0 t h

lemma maxId_append (rows : List Todo) (t : Todo) :
    maxId (rows ++ [t]) = max (maxId rows) t.id := by
  simp [maxId, List.foldl_append]

lemma find?_id_of_not_mem {rows : List Todo} {id : Int} (h : ∀ t ∈ rows, t.id ≠ id) :
    rows.find? (fun t => t.id == id) = none :=
  List.find?_eq_none.mpr fun t ht => by simpa using h t ht

lemma get_of_not_mem {rows : List Todo} {id : Int} (h : ∀ t ∈ rows, t.id ≠ id) :
    TodoRepository.get rows id = .error .notFound := by
  simp [TodoRepository.get, find?_id_of_not_mem h]

lemma eq_head_of_id_eq {r : Todo} {rs : List Todo} {t : Todo} (hmem : t ∈ r :: rs)
    (hr : r.id = t.id) (h1 : r.id ∉ rs.map Todo.id) : t = r := by
  rcases List.mem_cons.mp hmem with rfl | h2
  · rfl
  · exact absurd (by rw [hr]; exact List.mem_map_of_mem Todo.id h2) h1

lemma find?_id_of_mem {rows : List Todo} {t : Todo}
    (hmem : t ∈ rows) (hnd : (rows.map Todo.id).Nodup) :
    rows.find? (fun r => r.id == t.id) = some t := by
  induction rows with
  | nil => cases hmem
  | cons r rs ih =>
    simp only [List.map_cons, List.nodup_cons] at hnd
    by_cases hr : r.id = t.id
    · rw [List.find?_cons_of_pos _ (by simpa using hr)]
      rw [eq_head_of_id_eq hmem hr hnd.1]
    · rw [List.find?_cons_of_neg _ (by simpa using hr)]
      rcases List.mem_cons.mp hmem with rfl | h2
      · exact absurd rfl hr
      · exact ih h2 hnd.2

lemma get_of_mem {rows : List Todo} {t : Todo}
    (hmem : t ∈ rows) (hnd : (rows.map Todo.id).Nodup) :
    TodoRepository.get rows t.id = .ok t := by
  simp [TodoRepository.get, find?_id_of_mem hmem hnd]

lemma filter_id_of_mem {rows : List Todo} {t : Todo}
    (hmem : t ∈ rows) (hnd : (rows.map Todo.id).Nodup) :
    rows.filter (fun r => r.id == t.id) = [t] := by
  induction rows with
  | nil => cases hmem
  | cons r rs ih =>
    simp only [List.map_cons, List.nodup_cons] at hnd
    by_cases hr : r.id = t.id
    · rw [List.filter_cons_of_pos (by simpa using hr)]
      have ht : t = r := eq_head_of_id_eq hmem hr hnd.1
      subst ht
      have : rs.filter (fun r => r.id == t.id) = [] := by
        refine List.filter_eq_nil_iff.mpr fun x hx => ?_
        simp only [beq_iff_eq]
        intro e
        exact hnd.1 (by rw [hr, ← e]; exact List.mem_map_of_mem Todo.id hx)
      rw [this]
    · rw [List.filter_cons_of_neg (by simpa using hr)]
      rcases List.mem_cons.mp hmem with rfl | h2
      · exact absurd rfl hr
      · exact ih h2 hnd.2

lemma filter_id_of_not_mem {rows : List Todo} {id : Int} (h : ∀ t ∈ rows, t.id ≠ id) :
    rows.filter (fun t => t.id == id) = [] :=
  List.filter_eq_nil_iff.mpr fun t ht => by simpa using h t ht

lemma filter_ne_of_not_mem {rows : List Todo} {id : Int} (h : ∀ t ∈ rows, t.id ≠ id) :
    rows.filter (fun t => !(t.id == id)) = rows :=
  List.filter_eq_self.mpr fun t ht => by simpa using h t ht

instance : IsTotal Todo (fun a b => a.id ≤ b.id) :=
  ⟨fun a b => le_total a.id b.id⟩

instance : IsTrans Todo (fun a b => a.id ≤ b.id) :=
  ⟨fun _ _ _ h1 h2 => le_trans h1 h2⟩

lemma sortById_sorted (rows : List Todo) :
    List.Sorted (fun a b : Todo => a.id ≤ b.id) (sortById rows) :=
  List.sorted_insertionSort _ rows

lemma sortById_perm (rows : List Todo) : List.Perm (sortById rows) rows :=
  List.perm_insertionSort _ rows

lemma sortById_length (rows : List Todo) : (sortById rows).length = rows.length :=
  (sortById_perm rows).length_eq

lemma id_injective {rows : List Todo} (hnd : (rows.map Todo.id).Nodup)
    {t r : Todo} (ht : t ∈ rows) (hr : r ∈ rows) (he : r.id = t.id) : r = t :=
  List.inj_on_of_nodup_map hnd hr ht he

lemma update_ok {rows : List Todo} {id : Int} {patch : UpdateTodo} {n : Nat}
    {updated : List Todo}
    (h : TodoRepository.update rows id patch = .ok (n, updated)) :
    ∃ todo, TodoRepository.get rows id = .ok todo ∧
      n = (rows.filter (fun t => t.id == id)).length ∧
      updated = rows.map (fun t =>
        if t.id == id then
          { t with title := patch.title.getD todo.title,
                   notes := patch.notes.getD todo.notes,
                   completed := patch.completed.getD todo.completed }
        else t) := by
  unfold TodoRepository.update at h
  cases hg : TodoRepository.get rows id with
  | error e => rw [hg] at h; simp at h
  | ok todo =>
    rw [hg] at h
    simp only [Except.ok.injEq, Prod.mk.injEq] at h
    exact ⟨todo, rfl, h.1.symm, h.2.symm⟩

lemma map_id_set (rows : List Todo) (id : Int) (a b : String) (c : Bool) :
    ((rows.map (fun t =>
      if t.id == id then { t with title := a, notes := b, completed := c }
      else t)).map Todo.id) = rows.map Todo.id := by
  rw [List.map_map]
  refine List.map_congr_left fun t _ => ?_
  by_cases ht : t.id = id <;> simp [Function.comp, ht]

lemma apply_nodup {rows : List Todo} (op : Op)
    (h : (rows.map Todo.id).Nodup) : ((Op.apply rows op).map Todo.id).Nodup := by
  cases op with
  | create c =>
    simp only [Op.apply, TodoRepository.create, List.map_append, List.map_cons, List.map_nil]
    rw [List.nodup_append]
    refine ⟨h, List.nodup_singleton _, ?_⟩
    intro a ha hb
    rcases List.mem_map.mp ha with ⟨t, ht, rfl⟩
    have h1 := mem_le_maxId ht
    have h2 : t.id = maxId rows + 1 := by simpa using hb
    omega
  | get id => exact h
  | list pag => exact h
  | update id patch =>
    simp only [Op.apply]
    cases hu : TodoRepository.update rows id patch with
    | error e => exact h
    | ok pr =>
      obtain ⟨n, updated⟩ := pr
      obtain ⟨todo, _, _, hupd⟩ := update_ok hu
      rw [hupd, map_id_set]
      exact h
  | delete id =>
    simp only [Op.apply, TodoRepository.delete]
    exact List.Nodup.sublist ((List.filter_sublist rows).map Todo.id) h
  | cleanup => simp [Op.apply, TodoRepository.cleanup]

lemma run_nodup (ops : List Op) (rows : List Todo) (h : (rows.map Todo.id).Nodup) :
    ((run rows ops).map Todo.id).Nodup := by
  induction ops generalizing rows with
  | nil => exact h
  | cons op ops ih => exact ih _ (apply_nodup op h)

lemma reachable_nodup {rows : List Todo} (h : Reachable rows) :
    (rows.map Todo.id).Nodup := by
  obtain ⟨ops, rfl⟩ := h
  exact run_nodup ops [] (by simp)

lemma apply_read_eq (rows : List Todo) (op : Op) (h : op.isRead = true) :
    Op.apply rows op = rows := by
  cases op <;> simp [Op.isRead] at h <;> rfl

lemma run_reads_eq (ops : List Op) (rows : List Todo)
    (h : ∀ op ∈ ops, op.isRead = true) : run rows ops = rows := by
  induction ops with
  | nil => rfl
  | cons op ops ih =>
    rw [run, apply_read_eq rows op (h op (List.mem_cons_self op ops))]
    exact ih fun o ho => h o (List.mem_cons_of_mem op ho)

lemma length_filter_not_id {rows : List Todo} {t : Todo}
    (hmem : t ∈ rows) (hnd : (rows.map Todo.id).Nodup) :
    (rows.filter (fun r => !(r.id == t.id))).length + 1 = rows.length := by
  induction rows with
  | nil => cases hmem
  | cons r rs ih =>
    simp only [List.map_cons, List.nodup_cons] at hnd
    by_cases hr : r.id = t.id
    · rw [List.filter_cons_of_neg (by simp [hr])]
      have hrs : ∀ x ∈ rs, x.id ≠ t.id := by
        intro x hx e
        exact hnd.1 (by rw [hr, ← e]; exact List.mem_map_of_mem Todo.id hx)
      rw [filter_ne_of_not_mem hrs]
      simp
    · rw [List.filter_cons_of_pos (by simp [hr])]
      have h2 : t ∈ rs := by
        rcases List.mem_cons.mp hmem with rfl | h2
        · exact absurd rfl hr
        · exact h2
      have := ih h2 hnd.2
      simp only [List.length_cons]
      omega

lemma list_default_length (rows : List Todo) (h : rows.length ≤ u32Max) :
    (TodoRepository.list rows ⟨none, none⟩).length = rows.length := by
  simp only [TodoRepository.list, Option.getD_none, List.drop_zero]
  rw [List.length_take, sortById_length]
  omega

lemma createdIds_eq (cs : List CreateTodo) (rows : List Todo) :
    createdIds rows cs =
      (List.range cs.length).map (fun k : Nat => maxId rows + 1 + (k : Int)) := by
  induction cs generalizing rows with
  | nil => rfl
  | cons c cs ih =>
    simp only [createdIds]
    rw [ih]
    have hm : maxId (TodoRepository.create rows c).2 = maxId rows + 1 := by
      simp only [TodoRepository.create, maxId_append]
      exact max_eq_right (by omega)
    rw [hm, List.length_cons, List.range_succ_eq_map, List.map_cons, List.map_map]
    congr 1
    · simp [TodoRepository.create]
    · refine List.map_congr_left fun k _ => ?_
      simp only [Function.comp_apply]
      push_cast
      ring

/-- C1: for every row `t` present in the store (ids unique, as the primary key
guarantees) and every patch, `update t.id patch` reads the current row and
writes back a merged row in which each of title, notes, completed is taken
from the patch if present there and from the current row otherwise, reporting
one row affected; a patch with none of the three fields set leaves the table
unchanged and still reports one row affected. -/
theorem update_merges_patch_over_current (rows : List Todo) (t : Todo)
    (patch : UpdateTodo) (hmem : t ∈ rows) (hnd : (rows.map Todo.id).Nodup) :
    TodoRepository.update rows t.id patch =
      .ok (1, rows.map (fun r =>
        if r.id == t.id then
          { r with title := patch.title.getD t.title,
                   notes := patch.notes.getD t.notes,
                   completed := patch.completed.getD t.completed }
        else r))
    ∧ TodoRepository.update rows t.id ⟨none, none, none⟩ = .ok (1, rows) := by
  have hget := get_of_mem hmem hnd
  have haff : (rows.filter (fun r => r.id == t.id)).length = 1 := by
    rw [filter_id_of_mem hmem hnd]
    rfl
  constructor
  · unfold TodoRepository.update
    rw [hget]
    simp only [haff]
  · unfold TodoRepository.update
    rw [hget]
    simp only [haff, Option.getD_none]
    have hid : rows.map (fun r =>
        if r.id == t.id then
          { r with title := t.title, notes := t.notes, completed := t.completed }
        else r) = rows := by
      conv_rhs => rw [← List.map_id rows]
      refine List.map_congr_left fun r hr => ?_
      by_cases he : r.id = t.id
      · have : r = t := id_injective hnd hmem hr he
        subst this
        simp
      · simp [he]
    rw [hid]

/-- C1 witness: a patch with no fields set leaves the four-row table unchanged
and reports one row affected. -/
theorem update_merges_patch_over_current_witness :
    TodoRepository.update rows4 2 ⟨none, none, none⟩ = .ok (1, rows4) :=
  (update_merges_patch_over_current rows4 ⟨2, "Test todo 2", "note", false⟩
    ⟨none, none, none⟩ (by decide) (by decide)).2

/-- C2: `list` returns rows sorted by ascending id; a present limit bounds the
number of returned rows; an absent limit together with a table not longer than
`u32::MAX` yields all rows from the offset on; an absent limit behaves exactly
as limit `u32::MAX` (one code path); and on a four-row table with ids 1–4 the
four pagination combinations of the spec return the expected slices. -/
theorem list_ordered_paginated (rows : List Todo) (pag : Pagination) :
    List.Sorted (fun a b : Todo => a.id ≤ b.id) (TodoRepository.list rows pag)
    ∧ (∀ n, pag.limit = some n → (TodoRepository.list rows pag).length ≤ n)
    ∧ (pag.limit = none → rows.length ≤ u32Max →
        TodoRepository.list rows pag = (sortById rows).drop (pag.offset.getD 0))
    ∧ TodoRepository.list rows ⟨pag.offset, none⟩ =
        TodoRepository.list rows ⟨pag.offset, some u32Max⟩
    ∧ TodoRepository.list rows4 ⟨none, none⟩ = rows4
    ∧ TodoRepository.list rows4 ⟨some 1, none⟩ = rows4.drop 1
    ∧ TodoRepository.list rows4 ⟨none, some 3⟩ = rows4.take 3
    ∧ TodoRepository.list rows4 ⟨some 1, some 2⟩ = (rows4.drop 1).take 2 := by
  refine ⟨?_, ?_, ?_, rfl, by decide, by decide, by decide, by decide⟩
  · exact List.Pairwise.sublist
      ((List.take_sublist _ _).trans (List.drop_sublist _ _)) (sortById_sorted rows)
  · intro n hn
    simp only [TodoRepository.list, hn, Option.getD_some]
    exact List.length_take_le _ _
  · intro hl hlen
    simp only [TodoRepository.list, hl, Option.getD_none]
    refine List.take_of_length_le ?_
    calc ((sortById rows).drop (pag.offset.getD 0)).length
        ≤ (sortById rows).length := by
          rw [List.length_drop]; omega
      _ ≤ u32Max := by rw [sortById_length]; exact hlen

/-- C2 witness: on the four-row table, a limit of 2 bounds the result length
and an absent limit returns everything from offset 1 on. -/
theorem list_ordered_paginated_witness :
    (TodoRepository.list rows4 ⟨some 1, some 2⟩).length ≤ 2
    ∧ TodoRepository.list rows4 ⟨some 1, none⟩ = (sortById rows4).drop 1 :=
  ⟨(list_ordered_paginated rows4 ⟨some 1, some 2⟩).2.1 2 rfl,
   (list_ordered_paginated rows4 ⟨some 1, none⟩).2.2.1 rfl (by decide)⟩

/-- C3: `create` inserts exactly one row built from the supplied title alone,
and `get` of the returned id yields a todo whose title is the input title,
whose notes is the placeholder "note", and whose completed is false. -/
theorem create_then_get (rows : List Todo) (input : CreateTodo) :
    ((TodoRepository.create rows input).2).length = rows.length + 1
    ∧ TodoRepository.get (TodoRepository.create rows input).2
        (TodoRepository.create rows input).1 =
      .ok ⟨(TodoRepository.create rows input).1, input.title, "note", false⟩ := by
  constructor
  · simp [TodoRepository.create]
  · have hnone : rows.find? (fun t => t.id == maxId rows + 1) = none :=
      find?_id_of_not_mem fun t ht => by have := mem_le_maxId ht; omega
    simp only [TodoRepository.create, TodoRepository.get]
    rw [List.find?_append, hnone]
    simp

/-- C4: on an id matching no stored row, `get` fails with `notFound`, an error
distinguishable from `storageError`, and never a default todo; on an id of a
stored row (ids unique) it returns exactly that row. -/
theorem get_not_found_distinguishable (rows : List Todo) (id : Int) (t : Todo) :
    ((∀ r ∈ rows, r.id ≠ id) → TodoRepository.get rows id = .error .notFound)
    ∧ (∀ detail, (Except.error RepoError.notFound : Except RepoError Todo) ≠
        .error (.storageError detail))
    ∧ (t ∈ rows → t.id = id → (rows.map Todo.id).Nodup →
        TodoRepository.get rows id = .ok t) := by
  refine ⟨fun h => get_of_not_mem h, fun detail => by simp, fun hmem hid hnd => ?_⟩
  rw [← hid]
  exact get_of_mem hmem hnd

/-- C4 witness: `get` on absent id 7 fails with `notFound`; `get` on id 2
returns the stored row. -/
theorem get_not_found_distinguishable_witness :
    TodoRepository.get rows4 7 = .error .notFound
    ∧ TodoRepository.get rows4 2 = .ok ⟨2, "Test todo 2", "note", false⟩ :=
  ⟨(get_not_found_distinguishable rows4 7 ⟨2, "Test todo 2", "note", false⟩).1
     (by decide),
   (get_not_found_distinguishable rows4 2 ⟨2, "Test todo 2", "note", false⟩).2.2
     (by decide) rfl (by decide)⟩

/-- C5: deleting the id of a stored row (ids unique) reports one affected row,
drops the listed row count by exactly one, removes that row and no other;
deleting an absent id reports zero affected rows and leaves the table as it
was, without error. -/
theorem delete_existing_or_absent (rows : List Todo) (t : Todo)
    (hmem : t ∈ rows) (hnd : (rows.map Todo.id).Nodup) (hlen : rows.length ≤ u32Max) :
    (TodoRepository.delete rows t.id).1 = 1
    ∧ (TodoRepository.list (TodoRepository.delete rows t.id).2 ⟨none, none⟩).length + 1
        = (TodoRepository.list rows ⟨none, none⟩).length
    ∧ t ∉ (TodoRepository.delete rows t.id).2
    ∧ (∀ r ∈ rows, r.id ≠ t.id → r ∈ (TodoRepository.delete rows t.id).2)
    ∧ (∀ id2 : Int, (∀ r ∈ rows, r.id ≠ id2) →
        TodoRepository.delete rows id2 = (0, rows)) := by
  have hflt := length_filter_not_id hmem hnd
  refine ⟨?_, ?_, ?_, ?_, ?_⟩
  · simp only [TodoRepository.delete]
    rw [filter_id_of_mem hmem hnd]
    rfl
  · simp only [TodoRepository.delete]
    rw [list_default_length _ (by omega), list_default_length _ hlen]
    exact hflt
  · simp only [TodoRepository.delete]
    intro hin
    rcases List.mem_filter.mp hin with ⟨_, hb⟩
    simp at hb
  · intro r hr hne
    simp only [TodoRepository.delete]
    exact List.mem_filter.mpr ⟨hr, by simpa using hne⟩
  · intro id2 habs
    simp only [TodoRepository.delete]
    rw [filter_id_of_not_mem habs, filter_ne_of_not_mem habs]
    rfl

/-- C5 witness: deleting existing id 3 from the four-row table reports one
affected row; deleting absent id 9 reports zero and leaves the table intact. -/
theorem delete_existing_or_absent_witness :
    (TodoRepository.delete rows4 3).1 = 1
    ∧ TodoRepository.delete rows4 9 = (0, rows4) :=
  ⟨(delete_existing_or_absent rows4 ⟨3, "Test todo 3", "note", false⟩
      (by decide) (by decide) (by decide)).1,
   (delete_existing_or_absent rows4 ⟨3, "Test todo 3", "note", false⟩
      (by decide) (by decide) (by decide)).2.2.2.2 9 (by decide)⟩

/-- C6 counterexample: ids ARE reused.  Create "a" then "b": the second create
returns id 2; delete row 2; the next create returns id 2 again, because the
schema's `INTEGER PRIMARY KEY` without `AUTOINCREMENT` makes SQLite assign one
more than the current largest rowid. -/
theorem create_id_reuse_counterexample :
    (TodoRepository.create
      ((TodoRepository.create ([] : List Todo) ⟨"a"⟩).2) ⟨"b"⟩).1 = 2
    ∧ (TodoRepository.create
        ((TodoRepository.delete
          ((TodoRepository.create
            ((TodoRepository.create ([] : List Todo) ⟨"a"⟩).2) ⟨"b"⟩).2)
          2).2) ⟨"c"⟩).1 = 2 := by
  constructor <;> rfl

/-- C6 (amended): starting from the empty store, a sequence of successful
create calls with no intervening deletions returns the strictly increasing
ids 1, 2, 3, …; (an id can however be reused after the row holding the
largest id is deleted). -/
theorem create_ids_sequential (inputs : List CreateTodo) :
    createdIds [] inputs = (List.range inputs.length).map (fun k : Nat => (k : Int) + 1) := by
  rw [createdIds_eq]
  refine List.map_congr_left fun k _ => ?_
  simp only [maxId, List.foldl_nil]
  ring

/-- C7: when the requested offset exceeds the number of stored rows, `list`
returns the empty sequence (and, being total, does not fail). -/
theorem list_offset_beyond_rows_empty (rows : List Todo) (pag : Pagination)
    (n : Nat) (hoff : pag.offset = some n) (h : rows.length < n) :
    TodoRepository.list rows pag = [] := by
  unfold TodoRepository.list
  rw [hoff]
  have hd : (sortById rows).length ≤ n := by rw [sortById_length]; omega
  rw [Option.getD_some, List.drop_eq_nil_of_le hd]
  exact List.take_nil

/-- C7 witness: offset 10 on the four-row table yields the empty sequence. -/
theorem list_offset_beyond_rows_empty_witness :
    TodoRepository.list rows4 ⟨some 10, none⟩ = [] :=
  list_offset_beyond_rows_empty rows4 ⟨some 10, none⟩ 10 rfl (by decide)

/-- C8: a sequence of read-only calls (`get`/`list`) leaves the stored rows
unchanged, so two `list` calls with the same pagination separated only by
reads return identical sequences. -/
theorem list_stable_across_reads (rows : List Todo) (ops : List Op)
    (pag : Pagination) (h : ∀ op ∈ ops, op.isRead = true) :
    run rows ops = rows
    ∧ TodoRepository.list (run rows ops) pag = TodoRepository.list rows pag := by
  have hrun := run_reads_eq ops rows h
  exact ⟨hrun, by rw [hrun]⟩

/-- C8 witness: a `get` and a `list` between two identical `list` calls leave
the four-row table and the listed slice unchanged. -/
theorem list_stable_across_reads_witness :
    run rows4 [Op.get 1, Op.list ⟨none, none⟩] = rows4
    ∧ TodoRepository.list (run rows4 [Op.get 1, Op.list ⟨none, none⟩])
        ⟨some 1, some 2⟩ = TodoRepository.list rows4 ⟨some 1, some 2⟩ :=
  list_stable_across_reads rows4 [Op.get 1, Op.list ⟨none, none⟩]
    ⟨some 1, some 2⟩ (by decide)

/-- C9 counterexample: title emptiness is NOT invariant: `create` performs no
validation of the caller-supplied title, so a reachable state stores a todo
whose title is the empty string. -/
theorem reachable_empty_title_counterexample :
    ¬ (∀ rows : List Todo, Reachable rows → ∀ t ∈ rows, t.title ≠ "") := by
  intro h
  exact h [⟨1, "", "note", false⟩] ⟨[Op.create ⟨""⟩], rfl⟩
    ⟨1, "", "note", false⟩ (List.mem_singleton.mpr rfl) rfl

/-- C9 (amended): in every reachable store state the stored todos have
pairwise-distinct ids, and notes and completed always carry a defined value
(they are total fields of every stored row); the title is stored exactly as
the caller supplied it and may be empty. -/
theorem reachable_ids_unique (rows : List Todo) (h : Reachable rows) :
    (rows.map Todo.id).Nodup :=
  reachable_nodup h

/-- C9 witness: the state reached by two creates has distinct ids. -/
theorem reachable_ids_unique_witness :
    ((run [] [Op.create ⟨"Test todo 1"⟩, Op.create ⟨"Test todo 2"⟩]).map
      Todo.id).Nodup :=
  reachable_ids_unique _
    ⟨[Op.create ⟨"Test todo 1"⟩, Op.create ⟨"Test todo 2"⟩], rfl⟩

/-- C10: a successful `update` keeps the row count and the stored ids (in
order), and every row whose id differs from the updated id is left completely
unchanged in place. -/
theorem update_frames_other_rows (rows : List Todo) (id : Int)
    (patch : UpdateTodo) (n : Nat) (updated : List Todo)
    (h : TodoRepository.update rows id patch = .ok (n, updated)) :
    updated.length = rows.length
    ∧ updated.map Todo.id = rows.map Todo.id
    ∧ ∀ i (h1 : i < rows.length) (h2 : i < updated.length),
        (rows.get ⟨i, h1⟩).id ≠ id → updated.get ⟨i, h2⟩ = rows.get ⟨i, h1⟩ := by
  obtain ⟨todo, hget, hn, hupd⟩ := update_ok h
  subst hupd
  refine ⟨by simp, map_id_set rows id _ _ _, fun i h1 h2 hne => ?_⟩
  rw [List.get_map]
  exact if_neg (by simpa using hne)

/-- C10 witness: updating row 2 of the four-row table keeps all ids and
leaves row 1 unchanged in place. -/
theorem update_frames_other_rows_witness :
    ([⟨1, "Test todo 1", "note", false⟩, ⟨2, "x", "note", true⟩,
      ⟨3, "Test todo 3", "note", false⟩, ⟨4, "Test todo 4", "note", false⟩] :
      List Todo).map Todo.id = rows4.map Todo.id
    ∧ ([⟨1, "Test todo 1", "note", false⟩, ⟨2, "x", "note", true⟩,
        ⟨3, "Test todo 3", "note", false⟩, ⟨4, "Test todo 4", "note", false⟩] :
        List Todo).get ⟨0, by decide⟩ = rows4.get ⟨0, by decide⟩ :=
  ⟨(update_frames_other_rows rows4 2 ⟨some "x", none, some true⟩ 1 _ rfl).2.1,
   (update_frames_other_rows rows4 2 ⟨some "x", none, some true⟩ 1 _ rfl).2.2
     0 (by decide) (by decide) (by decide)⟩

example : TodoRepository.create [] ⟨"a"⟩ = (1, [⟨1, "a", "note", false⟩]) := by decide

example : TodoRepository.list rows4 ⟨some 1, some 2⟩ =
    [⟨2, "Test todo 2", "note", false⟩, ⟨3, "Test todo 3", "note", false⟩] := by decide

example : TodoRepository.list rows4 ⟨none, none⟩ = rows4 := by decide

example : TodoRepository.get rows4 5 = .error .notFound := rfl

example : (TodoRepository.delete rows4 3).1 = 1 := by decide

example : TodoRepository.update rows4 2 ⟨some "x", none, some true⟩ =
    .ok (1, [⟨1, "Test todo 1", "note", false⟩, ⟨2, "x", "note", true⟩,
             ⟨3, "Test todo 3", "note", false⟩, ⟨4, "Test todo 4", "note", false⟩]) := rfl

example :
    (TodoRepository.create
      ((TodoRepository.delete
        ((TodoRepository.create ((TodoRepository.create ([] : List Todo) ⟨"a"⟩).2) ⟨"b"⟩).2)
        2).2) ⟨"c"⟩).1 = 2 := by decide

example : run [] [.create ⟨""⟩] = [⟨1, "", "note", false⟩] := by decide
